import Mathlib

/-!
Shallow embedding of the pricing / discount computation and bulk
price-update engine of the FreshMart product service.

Two divergent `ProductService` copies exist in the repository; the more
detailed one (`src/unnamed/part_003`) is embedded here at top level, and
the functions that only the copy in
`src/src/services/api/productService.js` has (`calculateNewPrice`,
`roundToDecimals`) are embedded under their source names as well.

Modelling conventions, used consistently below:
* JS numbers are modelled as exact rationals (`ℚ`); `Math.round` is
  floor of `x + 1/2` (round half toward positive infinity), matching JS
  for all finite inputs.
* An optional / possibly-`undefined` object field is an `Option`;
  `parseFloat(x) || d` and `x || d` on numbers are `jsOr` (both `0` and
  an absent value are falsy in JS).  Inputs are assumed to be numeric
  (no NaN from malformed strings); the one place where an absent field
  makes NaN flow through arithmetic (`originalPrice` when
  `applyTo === 'cost_price'` and `purchasePrice` is `undefined`) is
  modelled explicitly as the full skip that the NaN comparisons produce.
* `Date` values (seasonal-discount ranges) are modelled as rational
  timestamps; they feed only non-blocking warnings.
* Wall-clock timestamps written by the code (`updatedAt`,
  `hierarchyLastUpdated`, `lastPriceUpdate`) are not representable in a
  pure model and are omitted; no claim mentions them.
* `profitMargin` is stored by the code as a `toFixed(2)` string; it is
  modelled as the 2-decimal rounded rational.
-/

/-- JS `Math.round`: round half toward positive infinity. -/
def jsRound (q : ℚ) : ℤ := Rat.floor (q + 1/2)

/-- `Math.round(x * 100) / 100`, the 2-decimal rounding used throughout the service. -/
def round2 (q : ℚ) : ℚ := (jsRound (q * 100) : ℚ) / 100

/-- JS `a || b` for an optional numeric field: `undefined` and `0` fall back to `b`. -/
def jsOr (a : Option ℚ) (b : ℚ) : ℚ :=
  match a with
  | some x => if x = 0 then b else x
  | none => b

/-- JS truthiness of an optional numeric field (`undefined` and `0` are falsy). -/
def truthyQ (a : Option ℚ) : Bool :=
  match a with
  | some x => decide (x ≠ 0)
  | none => false

/-- A product record of the in-memory collection (the fields the pricing
engine reads or writes; fields a record may lack are `Option`). -/
structure Product where
  id : Nat
  name : String
  price : ℚ
  basePrice : Option ℚ
  variationPrice : Option ℚ
  purchasePrice : Option ℚ
  minSellingPrice : Option ℚ
  profitMargin : Option ℚ
  previousPrice : Option ℚ
  effectivePrice : Option ℚ
  seasonalDiscount : Option ℚ
  seasonalDiscountType : Option String
  seasonalDiscountActive : Bool
  seasonalDiscountStartDate : Option ℚ
  seasonalDiscountEndDate : Option ℚ
  category : String
  stock : Int
deriving DecidableEq, Repr

/-- The price-guard configuration of a bulk update request. -/
structure PriceGuards where
  enabled : Bool
  minPrice : ℚ
  maxPrice : ℚ
  enforceMargin : Bool
  minMargin : ℚ
deriving DecidableEq, Repr

/-- A bulk update request (`updateData`); one open JS object in the
source, so all the fields any of the bulk entry points read are here. -/
structure UpdateData where
  strategy : Option String
  value : Option ℚ
  minPrice : Option ℚ
  maxPrice : Option ℚ
  applyTo : Option String
  selectedRows : Option (List Nat)
  category : String
  applyToLowStock : Bool
  stockThreshold : Int
  priceGuards : Option PriceGuards
  updateType : Option String
  conflictResolution : Option String
  variationPrice : Option ℚ
  seasonalDiscount : Option ℚ
  seasonalDiscountType : Option String
  seasonalDiscountActive : Bool
deriving DecidableEq, Repr

/-- Result of a validation routine: `{ isValid, error? }`. -/
structure VResult where
  isValid : Bool
  error : Option String
deriving DecidableEq, Repr

/-- A per-item bulk-update conflict record `{productId, productName, reason}`. -/
structure Conflict where
  productId : Nat
  productName : String
  reason : String
deriving DecidableEq, Repr

/-- A per-item bulk-update success record. -/
structure UpdateResult where
  productId : Nat
  productName : String
  oldPrice : ℚ
  newPrice : ℚ
  change : ℚ
  field : String
deriving DecidableEq, Repr

/-- The report `bulkUpdatePrices` returns. -/
structure BulkReport where
  updatedCount : Nat
  totalFiltered : Nat
  strategy : Option String
  applyTo : Option String
  conflicts : List Conflict
  updateResults : List UpdateResult
  priceGuardsApplied : Bool
deriving DecidableEq, Repr

/-- Mutable state threaded through the `forEach` loop of `bulkUpdatePrices`:
the collection plus the accumulators. -/
structure BulkState where
  products : List Product
  updatedCount : Nat
  updateResults : List UpdateResult
  conflicts : List Conflict
deriving DecidableEq, Repr

/-- `getAll` / `getById` financial filtering for non-admin callers: the
rest-destructuring `{ purchasePrice, minSellingPrice, profitMargin, ...rest }`
drops the three cost fields; dropping a key is modelled as `none`. -/
def filterFinancial (p : Product) : Product :=
  { p with purchasePrice := none, minSellingPrice := none, profitMargin := none }

/-- `getAll(userRole)` of `part_003` (the resolved list; the artificial delay
is dropped). -/
def getAll (userRole : String) (products : List Product) : List Product :=
  if userRole ≠ "admin" then products.map filterFinancial else products

/-- `getById(id, userRole)` of `part_003`; a missing product throws. -/
def getById (id : Nat) (userRole : String) (products : List Product) :
    Except String Product :=
  match products.find? (fun p => decide (p.id = id)) with
  | none => Except.error "Product not found"
  | some p => if userRole ≠ "admin" then Except.ok (filterFinancial p) else Except.ok p

/-- `calculateHierarchyPrice(productData)` of `part_003`: base price, then
variation override (when set and > 0), then seasonal discount, then 2-decimal
rounding. -/
def calculateHierarchyPrice (productData : Product) : ℚ :=
  let e0 : ℚ := jsOr productData.basePrice productData.price
  let e1 : ℚ :=
    match productData.variationPrice with
    | some v => if 0 < v then v else e0
    | none => e0
  let e2 : ℚ :=
    match productData.seasonalDiscount with
    | some d =>
        if 0 < d then
          if productData.seasonalDiscountType = some "Percentage" then
            e1 * (1 - d / 100)
          else
            max 0 (e1 - d)
        else e1
    | none => e1
  round2 e2

/-- Input of `validatePriceUpdate`: the candidate `{price?, purchasePrice?}`. -/
structure PriceData where
  price : Option ℚ
  purchasePrice : Option ℚ
deriving DecidableEq, Repr

/-- `validatePriceUpdate(priceData)` of `part_003` (lines 1722-1755): base
price > 0, cost ≥ 0, and price > cost when both are given.  The
string-format `catch` branch cannot fire in the typed model. -/
def validatePriceUpdate (priceData : PriceData) : VResult :=
  match priceData.price with
  | some price =>
      if price ≤ 0 then ⟨false, some "Base price must be greater than 0"⟩
      else
        match priceData.purchasePrice with
        | some costPrice =>
            if costPrice < 0 then ⟨false, some "Cost price cannot be negative"⟩
            else if price ≤ costPrice then
              ⟨false, some "Base price must be greater than cost price"⟩
            else ⟨true, none⟩
        | none => ⟨true, none⟩
  | none =>
      match priceData.purchasePrice with
      | some costPrice =>
          if costPrice < 0 then ⟨false, some "Cost price cannot be negative"⟩
          else ⟨true, none⟩
      | none => ⟨true, none⟩

/-- `validateBulkPriceUpdate(updateData)` of `part_003` (lines 262-306).
The `isNaN(parseFloat(value))` branch cannot fire on rational inputs. -/
def validateBulkPriceUpdate (u : UpdateData) : VResult :=
  let guardsCheck : VResult :=
    match u.priceGuards with
    | some g =>
        if g.enabled then
          if g.maxPrice ≤ g.minPrice then
            ⟨false, some "Price guard minimum must be less than maximum"⟩
          else if g.minMargin < 0 then
            ⟨false, some "Minimum margin cannot be negative"⟩
          else ⟨true, none⟩
        else ⟨true, none⟩
    | none => ⟨true, none⟩
  let applyToCheck : VResult :=
    if u.applyTo.isNone then ⟨false, some "Apply To selection is required"⟩
    else if u.applyTo = some "selected_rows" then
      match u.selectedRows with
      | none => ⟨false, some "No rows selected for update"⟩
      | some rows =>
          if rows.length = 0 then ⟨false, some "No rows selected for update"⟩
          else guardsCheck
    else guardsCheck
  if u.strategy.isNone then ⟨false, some "Update strategy is required"⟩
  else if u.strategy = some "range" then
    if truthyQ u.minPrice = false ∨ truthyQ u.maxPrice = false then
      ⟨false, some "Both minimum and maximum prices are required for range strategy"⟩
    else if u.maxPrice.getD 0 ≤ u.minPrice.getD 0 then
      ⟨false, some "Minimum price must be less than maximum price"⟩
    else applyToCheck
  else if truthyQ u.value = false then ⟨false, some "Update value is required"⟩
  else applyToCheck

/-- The `originalPrice` a bulk item starts from (`cost_price` targets the
purchase price, everything else the selling price). -/
def origOf (u : UpdateData) (p : Product) : ℚ :=
  if u.applyTo = some "cost_price" then p.purchasePrice.getD 0 else p.price

/-- The `switch (updateData.strategy)` candidate computation of
`bulkUpdatePrices` (percentage / fixed / range; otherwise unchanged). -/
def strategyPrice (u : UpdateData) (originalPrice : ℚ) : ℚ :=
  match u.strategy with
  | some "percentage" => originalPrice * (1 + (u.value.getD 0) / 100)
  | some "fixed" => originalPrice + u.value.getD 0
  | some "range" =>
      min (max originalPrice (u.minPrice.getD 0)) (jsOr u.maxPrice originalPrice)
  | _ => originalPrice

/-- The price-guard clamp of `bulkUpdatePrices`: raise to `minPrice`, then
lower to `maxPrice`, when guards are enabled. -/
def guardClamp (u : UpdateData) (x : ℚ) : ℚ :=
  match u.priceGuards with
  | some g =>
      if g.enabled then
        let x1 := if x < g.minPrice then g.minPrice else x
        if g.maxPrice < x1 then g.maxPrice else x1
      else x
  | none => x

/-- The margin-enforcement rejection test of `bulkUpdatePrices`: fires only
with guards enabled, `enforceMargin`, `applyTo === 'base_price'`, a positive
cost, and a clamped candidate below `cost × (1 + minMargin/100)`. -/
def marginRejected (u : UpdateData) (p : Product) (x : ℚ) : Bool :=
  match u.priceGuards with
  | some g =>
      g.enabled && g.enforceMargin && decide (u.applyTo = some "base_price") &&
      decide (0 < p.purchasePrice.getD 0) &&
      decide (x < p.purchasePrice.getD 0 * (1 + g.minMargin / 100))
  | none => false

/-- The conflict reason emitted by the margin-enforcement rejection. -/
def marginReason (u : UpdateData) : String :=
  match u.priceGuards with
  | some g =>
      "Price would violate minimum margin requirement (" ++ toString g.minMargin ++ "%)"
  | none => ""

/-- Field name a bulk item writes. -/
def updateFieldName (u : UpdateData) : String :=
  if u.applyTo = some "cost_price" then "purchasePrice" else "price"

/-- `this.products.find(p => p.id === i)` over the current collection. -/
def findById (i : Nat) (products : List Product) : Option Product :=
  products.find? (fun q => decide (q.id = i))

/-- `findIndex(p => p.id === i)` followed by assignment to that index:
replace the first entry whose id is `i` by `f` of it. -/
def updateById (i : Nat) (f : Product → Product) : List Product → List Product
  | [] => []
  | q :: qs => if q.id = i then f q :: qs else q :: updateById i f qs

/-- Write the updated field of a committing bulk item (`[updateField]: newPrice`). -/
def setField (u : UpdateData) (newPrice : ℚ) (q : Product) : Product :=
  if u.applyTo = some "cost_price" then { q with purchasePrice := some newPrice }
  else { q with price := newPrice }

/-- Stamp `previousPrice` for base-price style updates. -/
def prevStamp (u : UpdateData) (originalPrice : ℚ) (q : Product) : Product :=
  if u.applyTo = some "base_price" ∨ u.applyTo = some "filtered_products" then
    { q with previousPrice := some originalPrice }
  else q

/-- Recompute `profitMargin` when both stored prices are truthy
(`toFixed(2)` modelled as 2-decimal rounding). -/
def profitRecalc (q : Product) : Product :=
  if q.price ≠ 0 ∧ truthyQ q.purchasePrice = true then
    let c := q.purchasePrice.getD 0
    { q with profitMargin := some (round2 ((q.price - c) / c * 100)) }
  else q

/-- The whole mutation a committing bulk item applies to the stored record. -/
def commitMod (u : UpdateData) (originalPrice newPrice : ℚ) (q : Product) : Product :=
  profitRecalc (prevStamp u originalPrice (setField u newPrice q))

/-- One iteration of the `filteredProducts.forEach` body of
`bulkUpdatePrices` (lines 165-249 of `part_003`), acting on the snapshot
product `p`.  When `applyTo === 'cost_price'` and `purchasePrice` is
`undefined`, NaN flows through every comparison and the item is skipped. -/
def bulkStep (u : UpdateData) (st : BulkState) (p : Product) : BulkState :=
  if u.applyTo = some "cost_price" ∧ p.purchasePrice = none then st
  else
    let originalPrice := origOf u p
    let clamped := guardClamp u (strategyPrice u originalPrice)
    if marginRejected u p clamped = true then
      { st with conflicts := st.conflicts ++ [⟨p.id, p.name, marginReason u⟩] }
    else
      let newPrice := round2 clamped
      if 1/100 < |newPrice - originalPrice| then
        match findById p.id st.products with
        | some _ =>
            { products := updateById p.id (commitMod u originalPrice newPrice) st.products,
              updatedCount := st.updatedCount + 1,
              updateResults := st.updateResults ++
                [⟨p.id, p.name, originalPrice, newPrice, newPrice - originalPrice,
                  updateFieldName u⟩],
              conflicts := st.conflicts }
        | none => st
      else st

/-- The category / low-stock filter chain shared by the bulk entry points. -/
def categoryStockFilter (products : List Product) (u : UpdateData) : List Product :=
  let ps1 :=
    if u.category ≠ "all" then products.filter (fun p => decide (p.category = u.category))
    else products
  if u.applyToLowStock then ps1.filter (fun p => decide (p.stock ≤ u.stockThreshold))
  else ps1

/-- Target selection of `bulkUpdatePrices` (lines 133-158): explicit row
selection when present, otherwise the category / low-stock chain (the
`filtered_products` branch and the default branch are identical in the
source). -/
def filterTargets (products : List Product) (u : UpdateData) : List Product :=
  if u.applyTo = some "selected_rows" ∧ u.selectedRows.isSome = true then
    products.filter (fun p => (u.selectedRows.getD []).contains p.id)
  else if u.applyTo = some "filtered_products" then categoryStockFilter products u
  else categoryStockFilter products u

/-- `bulkUpdatePrices(updateData)` of `part_003` (lines 126-260): validate
the request (a failure throws before anything is touched), select targets,
run the per-item pipeline, and report.  The pair carries the report (or the
thrown message) together with the collection after the call. -/
def bulkUpdatePrices (products : List Product) (u : UpdateData) :
    Except String BulkReport × List Product :=
  let v := validateBulkPriceUpdate u
  if v.isValid = true then
    let filtered := filterTargets products u
    let st := filtered.foldl (bulkStep u) ⟨products, 0, [], []⟩
    (Except.ok
      { updatedCount := st.updatedCount
        totalFiltered := filtered.length
        strategy := u.strategy
        applyTo := u.applyTo
        conflicts := st.conflicts
        updateResults := st.updateResults.take 10
        priceGuardsApplied :=
          (match u.priceGuards with
           | some g => g.enabled
           | none => false) },
      st.products)
  else (Except.error (v.error.getD ""), products)

/-- Result of `validatePricingHierarchy`; conflicts are carried by their
`type` tag, warnings by a text. -/
structure HierarchyValidation where
  isValid : Bool
  conflicts : List String
  warnings : List String
  error : Option String
  finalPrice : ℚ
deriving DecidableEq, Repr

/-- `validatePricingHierarchy(productData, allProducts, excludeId)` of
`part_003` (lines 1202-1325).  Date ranges are rational timestamps; the
overlap scan feeds only warnings. -/
def validatePricingHierarchy (productData : Product) (allProducts : List Product)
    (excludeId : Option Nat) : HierarchyValidation :=
  let basePrice := jsOr productData.basePrice productData.price
  let variationPrice := productData.variationPrice.getD 0
  let seasonalDiscount := productData.seasonalDiscount.getD 0
  let seasonalDiscountType := productData.seasonalDiscountType.getD "Fixed Amount"
  let applicablePrice := if 0 < variationPrice then variationPrice else basePrice
  let finalPrice :=
    if seasonalDiscountType = "Percentage" then applicablePrice * (1 - seasonalDiscount / 100)
    else max 0 (applicablePrice - seasonalDiscount)
  let conflicts : List String :=
    (if basePrice ≤ 0 then ["invalid_base_price"] else []) ++
    (if 0 < seasonalDiscount ∧ seasonalDiscountType = "Percentage" ∧ 70 < seasonalDiscount
      then ["excessive_seasonal_discount"] else []) ++
    (if 0 < seasonalDiscount ∧ seasonalDiscountType = "Fixed Amount" ∧
        applicablePrice ≤ seasonalDiscount
      then ["invalid_seasonal_discount"] else []) ++
    (if 0 < seasonalDiscount ∧ finalPrice < basePrice * (1/10)
      then ["price_too_low"] else []) ++
    (if 0 < seasonalDiscount ∧ 0 < productData.purchasePrice.getD 0 ∧
        (finalPrice - productData.purchasePrice.getD 0) / productData.purchasePrice.getD 0
          * 100 < 5
      then ["low_profit_margin"] else [])
  let warnings : List String :=
    (if 0 < variationPrice ∧ variationPrice < basePrice * (8/10)
      then ["variation_price_low"] else []) ++
    (if 0 < seasonalDiscount ∧ productData.seasonalDiscountStartDate.isSome ∧
        productData.seasonalDiscountEndDate.isSome then
      ((allProducts.filter (fun q =>
          decide (q.category = productData.category) &&
          (match excludeId with
           | some e => decide (q.id ≠ e)
           | none => true) &&
          decide (0 < q.seasonalDiscount.getD 0) &&
          q.seasonalDiscountStartDate.isSome && q.seasonalDiscountEndDate.isSome &&
          decide (productData.seasonalDiscountStartDate.getD 0 ≤
            q.seasonalDiscountEndDate.getD 0) &&
          decide (q.seasonalDiscountStartDate.getD 0 ≤
            productData.seasonalDiscountEndDate.getD 0))).map
        (fun q => "Overlapping seasonal discount with " ++ q.name))
    else [])
  { isValid := conflicts.isEmpty
    conflicts := conflicts
    warnings := warnings
    error := if conflicts.isEmpty then none else some "Pricing hierarchy conflicts detected"
    finalPrice := calculateHierarchyPrice productData }

/-- One entry of `hierarchyUpdates` (with its `hierarchyBreakdown` inlined). -/
structure HierarchyUpdate where
  productId : Nat
  productName : String
  oldPrice : ℚ
  newEffectivePrice : ℚ
  breakdownBase : ℚ
  variationPrice : Option ℚ
  seasonalDiscount : Option ℚ
  seasonalDiscountType : Option String
deriving DecidableEq, Repr

/-- The report `bulkUpdatePricingHierarchy` returns (summary counters inlined). -/
structure HierarchyReport where
  updatedCount : Nat
  totalFiltered : Nat
  conflictCount : Nat
  updateType : Option String
  hierarchyUpdates : List HierarchyUpdate
  conflictProducts : List Product
  basePriceUpdates : Nat
  variationUpdates : Nat
  seasonalDiscountUpdates : Nat
deriving DecidableEq, Repr

/-- Loop state of `bulkUpdatePricingHierarchy`. -/
structure HState where
  products : List Product
  updatedCount : Nat
  hierarchyUpdates : List HierarchyUpdate
  conflictProducts : List Product
deriving DecidableEq, Repr

/-- One iteration of the `for (const product of filteredProducts)` body of
`bulkUpdatePricingHierarchy` (lines 1434-1539 of `part_003`): build the
candidate `updates` record, resolve seasonal-discount conflicts per
`conflictResolution`, validate the hierarchy against the current collection,
and commit on success.  The `hierarchyError` annotation on a conflict push
is dropped (the product itself is recorded). -/
def hierarchyStep (u : UpdateData) (st : HState) (p : Product) : HState :=
  let upd1 : Product :=
    if u.updateType = some "base_price" then
      let originalPrice := jsOr p.basePrice p.price
      let newPrice :=
        match u.strategy with
        | some "percentage" => originalPrice * (1 + (u.value.getD 0) / 100)
        | some "fixed" => originalPrice + u.value.getD 0
        | _ => originalPrice
      { p with basePrice := some (round2 newPrice), price := round2 newPrice }
    else p
  let upd2 : Product :=
    if u.updateType = some "variation_price" ∧ truthyQ u.variationPrice = true then
      { upd1 with variationPrice := u.variationPrice }
    else upd1
  let seasonal : Bool × Product × Bool :=
    if u.updateType = some "seasonal_discount" then
      if 0 < p.seasonalDiscount.getD 0 then
        match u.conflictResolution with
        | some "skip" => (false, upd2, true)
        | some "override" =>
            (true,
             { upd2 with
                seasonalDiscount := some (u.seasonalDiscount.getD 0)
                seasonalDiscountType := some (u.seasonalDiscountType.getD "Fixed Amount")
                seasonalDiscountActive := u.seasonalDiscountActive },
             false)
        | some "merge" =>
            if p.seasonalDiscount.getD 0 < u.seasonalDiscount.getD 0 then
              (true,
               { upd2 with
                  seasonalDiscount := some (u.seasonalDiscount.getD 0)
                  seasonalDiscountType := u.seasonalDiscountType
                  seasonalDiscountActive := u.seasonalDiscountActive },
               false)
            else (false, upd2, false)
        | _ => (true, upd2, false)
      else
        (true,
         { upd2 with
            seasonalDiscount := some (u.seasonalDiscount.getD 0)
            seasonalDiscountType := some (u.seasonalDiscountType.getD "Fixed Amount")
            seasonalDiscountActive := u.seasonalDiscountActive },
         false)
    else (true, upd2, false)
  let shouldUpdate := seasonal.1
  let updates := seasonal.2.1
  let st0 :=
    if seasonal.2.2 then { st with conflictProducts := st.conflictProducts ++ [p] } else st
  if shouldUpdate then
    let hv := validatePricingHierarchy updates st0.products (some p.id)
    if hv.isValid then
      match findById p.id st0.products with
      | some _ =>
          let eff := calculateHierarchyPrice updates
          { st0 with
              products :=
                updateById p.id (fun _ => { updates with effectivePrice := some eff })
                  st0.products
              updatedCount := st0.updatedCount + 1
              hierarchyUpdates := st0.hierarchyUpdates ++
                [⟨p.id, p.name, p.price, eff, jsOr updates.basePrice updates.price,
                  updates.variationPrice, updates.seasonalDiscount,
                  updates.seasonalDiscountType⟩] }
      | none => st0
    else { st0 with conflictProducts := st0.conflictProducts ++ [p] }
  else st0

/-- `bulkUpdatePricingHierarchy(updateData)` of `part_003` (lines 1409-1554). -/
def bulkUpdatePricingHierarchy (products : List Product) (u : UpdateData) :
    Except String HierarchyReport × List Product :=
  let v := validateBulkPriceUpdate u
  if v.isValid = true then
    let filtered := categoryStockFilter products u
    let st := filtered.foldl (hierarchyStep u) ⟨products, 0, [], []⟩
    (Except.ok
      { updatedCount := st.updatedCount
        totalFiltered := filtered.length
        conflictCount := st.conflictProducts.length
        updateType := u.updateType
        hierarchyUpdates := st.hierarchyUpdates.take 10
        conflictProducts := st.conflictProducts.take 5
        basePriceUpdates :=
          st.hierarchyUpdates.countP (fun h => decide (h.breakdownBase ≠ h.oldPrice))
        variationUpdates :=
          st.hierarchyUpdates.countP (fun h => decide (0 < h.variationPrice.getD 0))
        seasonalDiscountUpdates :=
          st.hierarchyUpdates.countP (fun h => decide (0 < h.seasonalDiscount.getD 0)) },
      st.products)
  else (Except.error (v.error.getD ""), products)

/-- `roundToDecimals(value)` of `src/src/services/api/productService.js`
at its default `decimals = 2` (the only precision the pricing paths use). -/
def roundToDecimals (value : ℚ) : ℚ := (jsRound (value * 100) : ℚ) / 100

/-- `calculateNewPrice(product, updateData)` of
`src/src/services/api/productService.js` (lines 272-298): strategy
arithmetic, optional guard clamp, then `roundToDecimals(Math.max(1, newPrice))`. -/
def calculateNewPrice (p : Product) (u : UpdateData) : ℚ :=
  let newPrice :=
    match u.strategy with
    | some "percentage" => p.price * (1 + (u.value.getD 0) / 100)
    | some "fixed" => p.price + u.value.getD 0
    | some "range" => min (max p.price (u.minPrice.getD 0)) (jsOr u.maxPrice p.price)
    | _ => p.price
  let guarded :=
    match u.priceGuards with
    | some g => if g.enabled then min g.maxPrice (max g.minPrice newPrice) else newPrice
    | none => newPrice
  roundToDecimals (max 1 guarded)

/-- A product record with every optional field absent (convenience
constructor for concrete test inputs; mirrors a minimal JS object). -/
def mkProduct (id : Nat) (name : String) (price : ℚ) : Product :=
  { id := id, name := name, price := price, basePrice := none, variationPrice := none,
    purchasePrice := none, minSellingPrice := none, profitMargin := none,
    previousPrice := none, effectivePrice := none, seasonalDiscount := none,
    seasonalDiscountType := none, seasonalDiscountActive := false,
    seasonalDiscountStartDate := none, seasonalDiscountEndDate := none,
    category := "general", stock := 10 }

/-- A bulk request with every optional field absent (convenience
constructor for concrete test inputs). -/
def mkUpdate : UpdateData :=
  { strategy := none, value := none, minPrice := none, maxPrice := none,
    applyTo := none, selectedRows := none, category := "all",
    applyToLowStock := false, stockThreshold := 10, priceGuards := none,
    updateType := none, conflictResolution := none, variationPrice := none,
    seasonalDiscount := none, seasonalDiscountType := none,
    seasonalDiscountActive := false }

/-- The scenario product of the no-cost-violation claims: base price 1000,
purchase price 700. -/
def costProduct : Product :=
  { mkProduct 1 "A" 1000 with
      basePrice := some 1000
      purchasePrice := some 700 }

/-- The scenario request: `strategy = percentage`, `value = -40`, base-price
target, no guards. -/
def costCutRequest : UpdateData :=
  { mkUpdate with
      strategy := some "percentage"
      value := some (-40)
      applyTo := some "base_price" }

/-- The same request with margin-enforcing price guards. -/
def costCutGuarded : UpdateData :=
  { costCutRequest with priceGuards := some ⟨true, 1, 10000, true, 5⟩ }

/-- What the scenario actually commits without guards. -/
def costCutOutcome : Product :=
  { costProduct with
      price := 600
      previousPrice := some 1000
      profitMargin := some (-1429/100) }

/-- The report of the unguarded scenario run. -/
def costCutReport : BulkReport :=
  { updatedCount := 1
    totalFiltered := 1
    strategy := some "percentage"
    applyTo := some "base_price"
    conflicts := []
    updateResults := [⟨1, "A", 1000, 600, -400, "price"⟩]
    priceGuardsApplied := false }

/-- The report of the guarded scenario run. -/
def costCutGuardedReport : BulkReport :=
  { updatedCount := 0
    totalFiltered := 1
    strategy := some "percentage"
    applyTo := some "base_price"
    conflicts := [⟨1, "A", "Price would violate minimum margin requirement (5%)"⟩]
    updateResults := []
    priceGuardsApplied := true }

/-- The hierarchy-precedence example: base 100, variation 80, 10 % seasonal. -/
def hierProduct : Product :=
  { mkProduct 1 "H" 100 with
      basePrice := some 100
      variationPrice := some 80
      seasonalDiscount := some 10
      seasonalDiscountType := some "Percentage" }

/-- A product with a 200 % percentage seasonal discount. -/
def negPctProduct : Product :=
  { mkProduct 1 "B" 100 with
      basePrice := some 100
      seasonalDiscount := some 200
      seasonalDiscountType := some "Percentage" }

/-- A product with a mild 30 % percentage seasonal discount. -/
def mildDiscProduct : Product :=
  { mkProduct 3 "C" 50 with
      seasonalDiscount := some 30
      seasonalDiscountType := some "Percentage" }

/-- Product with an active 10 % seasonal discount (merge-resolution scenario). -/
def mergeProduct : Product :=
  { mkProduct 1 "A" 100 with
      basePrice := some 100
      seasonalDiscount := some 10
      seasonalDiscountType := some "Percentage"
      seasonalDiscountActive := true
      category := "fruit" }

/-- A seasonal-discount bulk request with `conflictResolution = merge`. -/
def mergeRequest (d : ℚ) : UpdateData :=
  { mkUpdate with
      strategy := some "percentage"
      value := some 1
      applyTo := some "filtered_products"
      updateType := some "seasonal_discount"
      conflictResolution := some "merge"
      seasonalDiscount := some d
      seasonalDiscountType := some "Percentage"
      seasonalDiscountActive := true }

/-- Report of the merge run whose new discount (5) loses to the existing (10). -/
def mergeLowReport : HierarchyReport :=
  { updatedCount := 0
    totalFiltered := 1
    conflictCount := 0
    updateType := some "seasonal_discount"
    hierarchyUpdates := []
    conflictProducts := []
    basePriceUpdates := 0
    variationUpdates := 0
    seasonalDiscountUpdates := 0 }

/-- Stored record after the merge run whose new discount (15) wins. -/
def mergeHighOutcome : Product :=
  { mergeProduct with
      seasonalDiscount := some 15
      effectivePrice := some 85 }

/-- Report of the merge run whose new discount (15) wins. -/
def mergeHighReport : HierarchyReport :=
  { updatedCount := 1
    totalFiltered := 1
    conflictCount := 0
    updateType := some "seasonal_discount"
    hierarchyUpdates := [⟨1, "A", 100, 85, 100, none, some 15, some "Percentage"⟩]
    conflictProducts := []
    basePriceUpdates := 0
    variationUpdates := 0
    seasonalDiscountUpdates := 1 }

/-- A request with a strategy but no value (malformed in a way the claim's
enumeration does not list). -/
def noValueRequest : UpdateData :=
  { mkUpdate with
      strategy := some "percentage"
      applyTo := some "base_price" }

/-- Product for the tiny-change-but-conflicted run: price = cost = 100. -/
def tinyStepProduct : Product := { mkProduct 1 "A" 100 with purchasePrice := some 100 }

/-- Fixed +0.001 request with margin-enforcing guards: the candidate rounds
back to the original price yet is margin-rejected first. -/
def tinyStepRequest : UpdateData :=
  { mkUpdate with
      strategy := some "fixed"
      value := some (1/1000)
      applyTo := some "base_price"
      priceGuards := some ⟨true, 1, 1000, true, 5⟩ }

/-- Report of the tiny-step run. -/
def tinyStepReport : BulkReport :=
  { updatedCount := 0
    totalFiltered := 1
    strategy := some "fixed"
    applyTo := some "base_price"
    conflicts := [⟨1, "A", "Price would violate minimum margin requirement (5%)"⟩]
    updateResults := []
    priceGuardsApplied := true }

/-- Witness product for the tally-invariant claim. -/
def w8Product : Product := mkProduct 1 "W" 100

/-- Witness request for the tally-invariant claim. -/
def w8Request : UpdateData :=
  { mkUpdate with
      strategy := some "percentage"
      value := some 10
      applyTo := some "all_products" }

/-- Expected report of the tally-invariant witness run. -/
def w8Report : BulkReport :=
  { updatedCount := 1
    totalFiltered := 1
    strategy := some "percentage"
    applyTo := some "all_products"
    conflicts := []
    updateResults := [⟨1, "W", 100, 110, 10, "price"⟩]
    priceGuardsApplied := false }

/-- Expected collection of the tally-invariant witness run. -/
def w8Outcome : Product := { w8Product with price := 110 }

/-- Witness product for the cost-data-filtering claim. -/
def w9Product : Product :=
  { mkProduct 7 "P" 42 with
      purchasePrice := some 5
      minSellingPrice := some 6
      profitMargin := some 700 }

/-- Same record with different financial data. -/
def w9Variant : Product := { mkProduct 7 "P" 42 with purchasePrice := some 99 }

/-- The stored field a bulk update targets (`purchasePrice` for
`cost_price`, otherwise `price`): what "the stored price" of the tally
claim denotes for a given request. -/
def storedTarget (u : UpdateData) (p : Product) : Option ℚ :=
  if u.applyTo = some "cost_price" then p.purchasePrice else some p.price

/-- Number of positions whose targeted stored field differs between two
collection snapshots. -/
def diffCount (u : UpdateData) (ps qs : List Product) : Nat :=
  (List.zip ps qs).countP (fun pr => decide (storedTarget u pr.1 ≠ storedTarget u pr.2))

/-- Whether a service call result is a success. -/
def exceptIsOk {α : Type} (e : Except String α) : Bool :=
  match e with
  | Except.ok _ => true
  | Except.error _ => false

/-- Witness product for the no-op skip lemma. -/
def w7Product : Product := mkProduct 2 "S" 100

/-- Witness request for the no-op skip lemma: +0.004 fixed update, no guards. -/
def w7Request : UpdateData :=
  { mkUpdate with
      strategy := some "fixed"
      value := some (1/250)
      applyTo := some "all_products" }

theorem jsRound_eq_floor (q : ℚ) : jsRound q = ⌊q + 1/2⌋ := by
  rw [jsRound, Rat.floor_def', ← Rat.floor_def]

theorem round2_nonneg (q : ℚ) (h : 0 ≤ q) : 0 ≤ round2 q := by
  have h1 : (0:ℤ) ≤ jsRound (q * 100) := by
    rw [jsRound_eq_floor]
    exact Int.le_floor.mpr (by push_cast; linarith)
  have h2 : (0:ℚ) ≤ (jsRound (q * 100) : ℚ) := by exact_mod_cast h1
  rw [round2]
  positivity

theorem round2_one_le (q : ℚ) (h : 1 ≤ q) : 1 ≤ round2 q := by
  have h1 : (100:ℤ) ≤ jsRound (q * 100) := by
    rw [jsRound_eq_floor]
    exact Int.le_floor.mpr (by push_cast; linarith)
  have h2 : (100:ℚ) ≤ (jsRound (q * 100) : ℚ) := by exact_mod_cast h1
  rw [round2]
  linarith

/-- C2: `resolvePrice` resolves base price, then variation override (the
result is independent of the base price whenever `variationPrice` is set
and positive), then seasonal discount; on basePrice 100 / variationPrice 80
/ 10 % percentage seasonal discount it returns exactly 72. -/
theorem c2_hierarchy_precedence :
    (∀ (p : Product) (v : ℚ) (b : Option ℚ), p.variationPrice = some v → 0 < v →
      calculateHierarchyPrice { p with basePrice := b } = calculateHierarchyPrice p) ∧
    calculateHierarchyPrice hierProduct = 72 := by
  constructor
  · intro p v b hv hvpos
    simp only [calculateHierarchyPrice, hv, if_pos hvpos]
  · norm_num [calculateHierarchyPrice, hierProduct, mkProduct, jsOr, round2,
      jsRound, Rat.floor_def']

/-- Witness for C2 at the concrete example product. -/
theorem c2_hierarchy_precedence_witness :
    hierProduct.variationPrice = some 80 ∧ (0:ℚ) < 80 ∧
    calculateHierarchyPrice { hierProduct with basePrice := some 55555 } =
      calculateHierarchyPrice hierProduct :=
  ⟨by norm_num [hierProduct, mkProduct], by norm_num,
   c2_hierarchy_precedence.1 hierProduct 80 (some 55555)
     (by norm_num [hierProduct, mkProduct]) (by norm_num)⟩

/-- C3 counterexample: a 200 % percentage seasonal discount drives the
resolved price to −100 — the percentage branch has no floor at 0. -/
theorem c3_counterexample :
    calculateHierarchyPrice negPctProduct = -100 ∧ calculateHierarchyPrice negPctProduct < 0 := by
  constructor <;>
    norm_num [calculateHierarchyPrice, negPctProduct, mkProduct, jsOr, round2,
      jsRound, Rat.floor_def']

/-- C3 amended: the result is nonnegative provided the price fields are
nonnegative and any percentage seasonal discount is at most 100 (the
fixed-amount branch alone is floored at 0). -/
theorem c3_amended (p : Product)
    (hprice : 0 ≤ p.price)
    (hbase : ∀ b : ℚ, p.basePrice = some b → 0 ≤ b)
    (hpct : ∀ d : ℚ, p.seasonalDiscount = some d →
      p.seasonalDiscountType = some "Percentage" → d ≤ 100) :
    0 ≤ calculateHierarchyPrice p := by
  rw [calculateHierarchyPrice]
  apply round2_nonneg
  have he0 : 0 ≤ jsOr p.basePrice p.price := by
    cases hb : p.basePrice with
    | none => simp [jsOr, hprice]
    | some b =>
        by_cases hb0 : b = 0
        · simp [jsOr, hb0, hprice]
        · simp only [jsOr, if_neg hb0]
          exact hbase b hb
  have he1 : 0 ≤ (match p.variationPrice with
      | some v => if 0 < v then v else jsOr p.basePrice p.price
      | none => jsOr p.basePrice p.price) := by
    cases hv : p.variationPrice with
    | none => exact he0
    | some v =>
        by_cases hv0 : 0 < v
        · simp [hv0]; linarith
        · simp [hv0, he0]
  cases hd : p.seasonalDiscount with
  | none => simpa using he1
  | some d =>
      by_cases hd0 : 0 < d
      · by_cases ht : p.seasonalDiscountType = some "Percentage"
        · have hd100 : d ≤ 100 := hpct d hd ht
          simp only [hd, if_pos hd0, if_pos ht]
          have : (0:ℚ) ≤ 1 - d / 100 := by linarith
          exact mul_nonneg he1 this
        · simp only [hd, if_pos hd0, if_neg ht]
          exact le_max_left 0 _
      · simp only [hd, if_neg hd0]
        exact he1

/-- C3 witness: the amended bound at a 30 % percentage discount. -/
theorem c3_amended_witness :
    0 ≤ calculateHierarchyPrice mildDiscProduct ∧
    mildDiscProduct.seasonalDiscount = some 30 ∧
    mildDiscProduct.seasonalDiscountType = some "Percentage" := by
  refine ⟨c3_amended mildDiscProduct ?_ ?_ ?_, ?_, ?_⟩
  · norm_num [mildDiscProduct, mkProduct]
  · intro b hb
    simp [mildDiscProduct, mkProduct] at hb
  · intro d hd _
    simp [mildDiscProduct, mkProduct] at hd
    rw [← hd]
    norm_num
  · norm_num [mildDiscProduct, mkProduct]
  · norm_num [mildDiscProduct, mkProduct]

/-- C4 counterexample: sell 103 against cost 100 has a 3 % margin, below
the claimed 5 % floor, yet `validatePriceUpdate` accepts it. -/
theorem c4_counterexample :
    (validatePriceUpdate ⟨some 103, some 100⟩).isValid = true ∧
    ((103:ℚ) - 100) / 100 * 100 < 5 ∧ (0:ℚ) < 100 := by
  refine ⟨?_, by norm_num, by norm_num⟩
  norm_num [validatePriceUpdate]

/-- C4 amended: for a positive cost, `validatePriceUpdate` rejects exactly
when the sell price does not exceed the cost (a 0 % floor, not 5 %). -/
theorem c4_amended (s c : ℚ) (hc : 0 < c) :
    (validatePriceUpdate ⟨some s, some c⟩).isValid = false ↔ s ≤ c := by
  simp only [validatePriceUpdate]
  split_ifs with h1 h2 h3
  · simp only [eq_self_iff_true, true_iff]
    linarith
  · linarith
  · simp [h3]
  · simp [h3]

/-- C4 witness: the amended characterization at sell 50 / cost 100. -/
theorem c4_amended_witness :
    (0:ℚ) < 100 ∧
    ((validatePriceUpdate ⟨some 50, some 100⟩).isValid = false ↔ (50:ℚ) ≤ 100) :=
  ⟨by norm_num, c4_amended 50 100 (by norm_num)⟩

theorem roundToDecimals_one_le (q : ℚ) (h : 1 ≤ q) : 1 ≤ roundToDecimals q :=
  round2_one_le q h

/-- C10: the candidate of the api-service `calculateNewPrice` is always at
least 1 — `Math.max(1, ·)` is applied before the final rounding, for every
product, strategy, value and guard configuration. -/
theorem c10_candidate_floor (p : Product) (u : UpdateData) :
    1 ≤ calculateNewPrice p u := by
  rw [calculateNewPrice]
  exact roundToDecimals_one_le _ (le_max_left 1 _)

theorem map_filterFinancial_congr :
    ∀ {l1 l2 : List Product},
      List.Forall₂ (fun a b => filterFinancial a = filterFinancial b) l1 l2 →
      l1.map filterFinancial = l2.map filterFinancial := by
  intro l1 l2 h
  induction h with
  | nil => rfl
  | cons hab htail ih => simp [List.map_cons, hab, ih]

theorem getById_filter_congr (i : Nat) (role : String) (hrole : role ≠ "admin") :
    ∀ {l1 l2 : List Product},
      List.Forall₂ (fun a b => filterFinancial a = filterFinancial b) l1 l2 →
      getById i role l1 = getById i role l2 := by
  intro l1 l2 h
  induction h with
  | nil => rfl
  | @cons a b tl1 tl2 hab htail ih =>
      have hid : a.id = b.id := by
        have h2 := congrArg Product.id hab
        simpa [filterFinancial] using h2
      by_cases hi : a.id = i
      · have hbi : b.id = i := hid ▸ hi
        rw [getById, getById, List.find?_cons_of_pos _ (by simp [hi]),
          List.find?_cons_of_pos _ (by simp [hbi])]
        simp [if_pos hrole, hab]
      · have hbi : ¬ b.id = i := by rw [← hid]; exact hi
        rw [getById, getById, List.find?_cons_of_neg _ (by simp [hi]),
          List.find?_cons_of_neg _ (by simp [hbi])]
        rw [getById, getById] at ih
        exact ih

/-- C9: for every non-admin role, `getAll` and `getById` never expose
`purchasePrice`, `minSellingPrice` or `profitMargin` (the fields are
stripped), and their output is invariant under arbitrary changes of those
three fields in the stored collection. -/
theorem c9_cost_data_filtering (role : String) (ps : List Product) (hrole : role ≠ "admin") :
    (∀ q ∈ getAll role ps,
      q.purchasePrice = none ∧ q.minSellingPrice = none ∧ q.profitMargin = none) ∧
    (∀ ps2, List.Forall₂ (fun a b => filterFinancial a = filterFinancial b) ps ps2 →
      getAll role ps = getAll role ps2) ∧
    (∀ (i : Nat) (q : Product), getById i role ps = Except.ok q →
      q.purchasePrice = none ∧ q.minSellingPrice = none ∧ q.profitMargin = none) ∧
    (∀ (i : Nat) (ps2 : List Product),
      List.Forall₂ (fun a b => filterFinancial a = filterFinancial b) ps ps2 →
      getById i role ps = getById i role ps2) := by
  refine ⟨?_, ?_, ?_, ?_⟩
  · rw [getAll, if_pos hrole]
    intro q hq
    obtain ⟨x, -, rfl⟩ := List.mem_map.mp hq
    exact ⟨rfl, rfl, rfl⟩
  · intro ps2 h
    rw [getAll, getAll, if_pos hrole, if_pos hrole]
    exact map_filterFinancial_congr h
  · intro i q h
    rw [getById] at h
    cases hf : ps.find? (fun p => decide (p.id = i)) with
    | none => rw [hf] at h; cases h
    | some x =>
        rw [hf] at h
        simp only [if_pos hrole, Except.ok.injEq] at h
        rw [← h]
        exact ⟨rfl, rfl, rfl⟩
  · intro i ps2 h
    exact getById_filter_congr i role hrole h

/-- C9 witness: a customer read of two collections differing only in cost
data yields identical results. -/
theorem c9_cost_data_filtering_witness :
    ("customer" : String) ≠ "admin" ∧
    (∀ q ∈ getAll "customer" [w9Product],
      q.purchasePrice = none ∧ q.minSellingPrice = none ∧ q.profitMargin = none) ∧
    getAll "customer" [w9Product] = getAll "customer" [w9Variant] := by
  have h := c9_cost_data_filtering "customer" [w9Product] (by decide)
  refine ⟨by decide, h.1, h.2.1 [w9Variant] ?_⟩
  exact List.Forall₂.cons (by rfl) List.Forall₂.nil

/-- C1 counterexample: the −40 % bulk update on basePrice 1000 /
purchasePrice 700 commits a stored price of 600 ≤ 700 and reports no
conflict — `bulkUpdatePrices` has no unconditional cost check. -/
theorem c1_counterexample :
    bulkUpdatePrices [costProduct] costCutRequest =
      (Except.ok costCutReport, [costCutOutcome]) ∧
    costCutOutcome.purchasePrice = some 700 ∧
    costCutOutcome.price ≤ 700 ∧ (0:ℚ) < 700 ∧
    costCutReport.conflicts = [] := by
  refine ⟨?_, by norm_num [costCutOutcome, costProduct, mkProduct],
    by norm_num [costCutOutcome, costProduct, mkProduct], by norm_num,
    by norm_num [costCutReport]⟩
  simp [bulkUpdatePrices, validateBulkPriceUpdate, filterTargets,
    categoryStockFilter, bulkStep, origOf, strategyPrice, guardClamp,
    marginRejected, marginReason, updateFieldName, findById, updateById,
    commitMod, setField, prevStamp, profitRecalc, truthyQ, jsOr, round2,
    jsRound, mkProduct, mkUpdate, costProduct, costCutRequest,
    costCutReport, costCutOutcome]
  norm_num [Rat.floor_def']

/-- C1 amended: the cost protection exists only through the optional price
guards: whenever the margin-enforcement test fires, the item is skipped and
recorded as a conflict with the margin reason; under guards the −40 %
scenario leaves the stored price at 1000 and reports the conflict, while
without guards it commits 600 (see the counterexample). -/
theorem c1_amended :
    (∀ (u : UpdateData) (st : BulkState) (p : Product),
        marginRejected u p (guardClamp u (strategyPrice u (origOf u p))) = true →
        bulkStep u st p =
          { st with conflicts := st.conflicts ++ [⟨p.id, p.name, marginReason u⟩] }) ∧
    bulkUpdatePrices [costProduct] costCutGuarded =
      (Except.ok costCutGuardedReport, [costProduct]) := by
  constructor
  · intro u st p h
    have hbp : u.applyTo = some "base_price" := by
      rcases hg : u.priceGuards with _ | g
      · rw [marginRejected, hg] at h
        exact absurd h (by simp)
      · rw [marginRejected, hg] at h
        simp only [Bool.and_eq_true, decide_eq_true_eq] at h
        exact h.1.1.2
    rw [bulkStep, if_neg (by simp [hbp])]
    simp [h]
  · simp [bulkUpdatePrices, validateBulkPriceUpdate, filterTargets,
      categoryStockFilter, bulkStep, origOf, strategyPrice, guardClamp,
      marginRejected, marginReason, updateFieldName, findById, updateById,
      commitMod, setField, prevStamp, profitRecalc, truthyQ, jsOr, round2,
      jsRound, mkProduct, mkUpdate, costProduct,
      costCutRequest, costCutGuarded, costCutGuardedReport]
    norm_num [Rat.floor_def']
    rfl

/-- C1 witness: the general margin-rejection lemma applied at the guarded
scenario inputs. -/
theorem c1_amended_witness :
    marginRejected costCutGuarded costProduct
      (guardClamp costCutGuarded (strategyPrice costCutGuarded
        (origOf costCutGuarded costProduct))) = true ∧
    bulkStep costCutGuarded ⟨[costProduct], 0, [], []⟩ costProduct =
      { products := [costProduct], updatedCount := 0, updateResults := [],
        conflicts := [⟨1, "A", "Price would violate minimum margin requirement (5%)"⟩] } := by
  have hm : marginRejected costCutGuarded costProduct
      (guardClamp costCutGuarded (strategyPrice costCutGuarded
        (origOf costCutGuarded costProduct))) = true := by
    simp [marginRejected, guardClamp, strategyPrice, origOf, truthyQ, jsOr,
      costCutGuarded, costCutRequest, costProduct, mkProduct, mkUpdate]
    norm_num
  refine ⟨hm, ?_⟩
  have h2 := c1_amended.1 costCutGuarded ⟨[costProduct], 0, [], []⟩ costProduct hm
  rw [h2]
  simp [marginReason, costCutGuarded, costCutRequest, costProduct, mkProduct, mkUpdate]
  rfl

/-- C5 counterexample: merge resolution where the existing discount (10)
beats the new one (5) leaves the product untouched but does NOT record it
in the returned conflicts — unlike the `skip` branch, the merge-else path
pushes nothing. -/
theorem c5_counterexample :
    mergeProduct.seasonalDiscount = some 10 ∧
    (mergeRequest 5).seasonalDiscount = some 5 ∧
    (mergeRequest 5).conflictResolution = some "merge" ∧
    bulkUpdatePricingHierarchy [mergeProduct] (mergeRequest 5) =
      (Except.ok mergeLowReport, [mergeProduct]) ∧
    mergeLowReport.conflictProducts = [] ∧ mergeLowReport.conflictCount = 0 := by
  refine ⟨rfl, rfl, rfl, ?_, rfl, rfl⟩
  simp [bulkUpdatePricingHierarchy, validateBulkPriceUpdate, categoryStockFilter,
    hierarchyStep, validatePricingHierarchy, calculateHierarchyPrice, findById,
    updateById, truthyQ, jsOr, round2, jsRound, mkProduct, mkUpdate,
    mergeProduct, mergeRequest, mergeLowReport]
  try norm_num [Rat.floor_def']
  try simp [bulkUpdatePricingHierarchy, validateBulkPriceUpdate, categoryStockFilter,
    hierarchyStep, validatePricingHierarchy, calculateHierarchyPrice, findById,
    updateById, truthyQ, jsOr, round2, jsRound, mkProduct, mkUpdate,
    mergeProduct, mergeRequest, mergeLowReport]
  try norm_num [Rat.floor_def']

/-- C5 amended: merge keeps the larger discount, but silently — when the
existing discount wins the step changes nothing at all (no conflict entry),
and when the new discount wins (and hierarchy validation passes) the stored
discount becomes the new value. -/
theorem c5_amended :
    (∀ (u : UpdateData) (st : HState) (p : Product),
        u.updateType = some "seasonal_discount" →
        u.conflictResolution = some "merge" →
        0 < p.seasonalDiscount.getD 0 →
        u.seasonalDiscount.getD 0 ≤ p.seasonalDiscount.getD 0 →
        hierarchyStep u st p = st) ∧
    bulkUpdatePricingHierarchy [mergeProduct] (mergeRequest 15) =
      (Except.ok mergeHighReport, [mergeHighOutcome]) ∧
    mergeHighOutcome.seasonalDiscount = some 15 := by
  refine ⟨?_, ?_, rfl⟩
  · intro u st p hty hres hex hle
    rw [hierarchyStep]
    simp [hty, hres, if_pos hex, not_lt.mpr hle]
  · simp [bulkUpdatePricingHierarchy, validateBulkPriceUpdate, categoryStockFilter,
      hierarchyStep, validatePricingHierarchy, calculateHierarchyPrice, findById,
      updateById, truthyQ, jsOr, round2, jsRound, mkProduct, mkUpdate,
      mergeProduct, mergeRequest, mergeHighReport, mergeHighOutcome]
    try norm_num [Rat.floor_def']
    try simp [bulkUpdatePricingHierarchy, validateBulkPriceUpdate, categoryStockFilter,
      hierarchyStep, validatePricingHierarchy, calculateHierarchyPrice, findById,
      updateById, truthyQ, jsOr, round2, jsRound, mkProduct, mkUpdate,
      mergeProduct, mergeRequest, mergeHighReport, mergeHighOutcome]
    try norm_num [Rat.floor_def']

/-- C5 witness: the merge-skip lemma applied at the concrete losing request. -/
theorem c5_amended_witness :
    (mergeRequest 5).updateType = some "seasonal_discount" ∧
    (0:ℚ) < mergeProduct.seasonalDiscount.getD 0 ∧
    (mergeRequest 5).seasonalDiscount.getD 0 ≤ mergeProduct.seasonalDiscount.getD 0 ∧
    hierarchyStep (mergeRequest 5) ⟨[mergeProduct], 0, [], []⟩ mergeProduct =
      ⟨[mergeProduct], 0, [], []⟩ := by
  refine ⟨rfl, by norm_num [mergeProduct, mkProduct], by norm_num [mergeProduct, mergeRequest, mkProduct, mkUpdate], ?_⟩
  exact c5_amended.1 (mergeRequest 5) ⟨[mergeProduct], 0, [], []⟩ mergeProduct rfl rfl
    (by norm_num [mergeProduct, mkProduct])
    (by norm_num [mergeProduct, mergeRequest, mkProduct, mkUpdate])

/-- C6 counterexample: a request with a strategy, not of range kind, still
fails the whole call (missing `value`), so the claim's enumeration of
whole-call failures is incomplete. -/
theorem c6_counterexample :
    noValueRequest.strategy = some "percentage" ∧
    noValueRequest.strategy ≠ some "range" ∧
    (bulkUpdatePrices [costProduct] noValueRequest).1 =
      Except.error "Update value is required" ∧
    (bulkUpdatePrices [costProduct] noValueRequest).2 = [costProduct] := by
  refine ⟨rfl, by simp [noValueRequest, mkUpdate], ?_, ?_⟩ <;>
    simp [bulkUpdatePrices, validateBulkPriceUpdate, truthyQ,
      noValueRequest, mkUpdate]

/-- C6 amended: the call fails as a whole exactly when
`validateBulkPriceUpdate` rejects the request (missing strategy; missing or
zero value for non-range strategies; missing, zero or inverted bounds for
range; missing applyTo; empty row selection; invalid price guards), and a
rejected call leaves the collection untouched; a request that validates
always yields a report. -/
theorem c6_amended (ps : List Product) (u : UpdateData) :
    (exceptIsOk (bulkUpdatePrices ps u).1 = (validateBulkPriceUpdate u).isValid) ∧
    ((validateBulkPriceUpdate u).isValid = false → (bulkUpdatePrices ps u).2 = ps) := by
  constructor
  · cases hv : (validateBulkPriceUpdate u).isValid <;>
      simp [bulkUpdatePrices, hv, exceptIsOk]
  · intro hfalse
    simp [bulkUpdatePrices, hfalse]

/-- C6 witness: the amended characterization at the missing-value request. -/
theorem c6_amended_witness :
    (validateBulkPriceUpdate noValueRequest).isValid = false ∧
    (bulkUpdatePrices [costProduct] noValueRequest).2 = [costProduct] := by
  have hv : (validateBulkPriceUpdate noValueRequest).isValid = false := by
    simp [validateBulkPriceUpdate, truthyQ, noValueRequest, mkUpdate]
  exact ⟨hv, (c6_amended [costProduct] noValueRequest).2 hv⟩

/-- C7 counterexample: under margin-enforcing guards, an item whose rounded
candidate equals its original price (difference 0 < 0.01) is still pushed
into `conflicts` — the margin rejection happens before the no-op check. -/
theorem c7_counterexample :
    round2 (guardClamp tinyStepRequest (strategyPrice tinyStepRequest
      (origOf tinyStepRequest tinyStepProduct))) = 100 ∧
    origOf tinyStepRequest tinyStepProduct = 100 ∧
    |(100:ℚ) - 100| < 1/100 ∧
    bulkUpdatePrices [tinyStepProduct] tinyStepRequest =
      (Except.ok tinyStepReport, [tinyStepProduct]) ∧
    tinyStepReport.conflicts.map Conflict.productId = [1] := by
  refine ⟨?_, ?_, by norm_num, ?_, rfl⟩
  · simp [guardClamp, strategyPrice, origOf, truthyQ, jsOr, round2, jsRound,
      tinyStepRequest, tinyStepProduct, mkProduct, mkUpdate]
    norm_num [Rat.floor_def']
  · simp [origOf, tinyStepRequest, tinyStepProduct, mkProduct, mkUpdate]
  · simp [bulkUpdatePrices, validateBulkPriceUpdate, filterTargets,
      categoryStockFilter, bulkStep, origOf, strategyPrice, guardClamp,
      marginRejected, marginReason, updateFieldName, findById, updateById,
      commitMod, setField, prevStamp, profitRecalc, truthyQ, jsOr, round2,
      jsRound, mkProduct, mkUpdate, tinyStepProduct, tinyStepRequest,
      tinyStepReport]
    norm_num [Rat.floor_def']
    try rfl

/-- C7 amended: an item that is not margin-rejected and whose rounded
candidate differs from its original price by at most 0.01 is a complete
no-op: the step leaves the collection, the counter, the results and the
conflicts unchanged. -/
theorem c7_amended (u : UpdateData) (st : BulkState) (p : Product)
    (hmr : marginRejected u p (guardClamp u (strategyPrice u (origOf u p))) = false)
    (hsmall : |round2 (guardClamp u (strategyPrice u (origOf u p))) - origOf u p| ≤ 1/100) :
    bulkStep u st p = st := by
  by_cases h1 : u.applyTo = some "cost_price" ∧ p.purchasePrice = none
  · rw [bulkStep, if_pos h1]
  · rw [bulkStep, if_neg h1]
    simp [hmr]
    intro hlt
    exact absurd hlt (by simpa using not_lt.mpr hsmall)

/-- C7 witness: the no-op lemma at a +0.004 fixed update of a 100-priced
product without guards. -/
theorem c7_amended_witness :
    marginRejected w7Request w7Product
      (guardClamp w7Request (strategyPrice w7Request (origOf w7Request w7Product))) = false ∧
    |round2 (guardClamp w7Request (strategyPrice w7Request (origOf w7Request w7Product))) -
      origOf w7Request w7Product| ≤ 1/100 ∧
    bulkStep w7Request ⟨[], 3, [], []⟩ w7Product = ⟨[], 3, [], []⟩ := by
  have hm : marginRejected w7Request w7Product
      (guardClamp w7Request (strategyPrice w7Request (origOf w7Request w7Product))) = false := by
    simp [marginRejected, w7Request, mkUpdate]
  have hs : |round2 (guardClamp w7Request (strategyPrice w7Request
      (origOf w7Request w7Product))) - origOf w7Request w7Product| ≤ 1/100 := by
    simp [guardClamp, strategyPrice, origOf, truthyQ, jsOr, round2, jsRound,
      w7Request, w7Product, mkProduct, mkUpdate]
    norm_num [Rat.floor_def']
  exact ⟨hm, hs, c7_amended w7Request ⟨[], 3, [], []⟩ w7Product hm hs⟩

theorem commitMod_id (u : UpdateData) (o n : ℚ) (q : Product) :
    (commitMod u o n q).id = q.id := by
  rw [commitMod, profitRecalc, prevStamp, setField]
  split_ifs <;> rfl

theorem updateById_map_id (i : Nat) (f : Product → Product)
    (hf : ∀ x, (f x).id = x.id) :
    ∀ l : List Product, (updateById i f l).map Product.id = l.map Product.id
  | [] => rfl
  | q :: qs => by
      rw [updateById]
      by_cases h : q.id = i
      · simp [h, hf]
      · simp [h, updateById_map_id i f hf qs]

theorem findById_updateById_ne (i j : Nat) (f : Product → Product)
    (hf : ∀ x, (f x).id = x.id) (hne : j ≠ i) :
    ∀ l : List Product, findById j (updateById i f l) = findById j l
  | [] => rfl
  | q :: qs => by
      rw [updateById]
      by_cases h : q.id = i
      · rw [if_pos h]
        have h1 : ¬ ((f q).id = j) := by rw [hf, h]; exact fun hh => hne hh.symm
        have h2 : ¬ (q.id = j) := by rw [h]; exact fun hh => hne hh.symm
        rw [findById, findById, List.find?_cons_of_neg _ (by simp [h1]),
          List.find?_cons_of_neg _ (by simp [h2])]
      · rw [if_neg h]
        by_cases h2 : q.id = j
        · rw [findById, findById, List.find?_cons_of_pos _ (by simp [h2]),
            List.find?_cons_of_pos _ (by simp [h2])]
        · rw [findById, findById, List.find?_cons_of_neg _ (by simp [h2]),
            List.find?_cons_of_neg _ (by simp [h2])]
          exact findById_updateById_ne i j f hf hne qs

theorem findById_of_mem_nodup :
    ∀ {ps : List Product} {q : Product}, q ∈ ps → (ps.map Product.id).Nodup →
      findById q.id ps = some q := by
  intro ps
  induction ps with
  | nil => intro q h; cases h
  | cons a l ih =>
      intro q hmem hnodup
      have hnodup' : (a.id :: l.map Product.id).Nodup := by simpa using hnodup
      rcases List.mem_cons.mp hmem with rfl | hl
      · rw [findById, List.find?_cons_of_pos _ (by simp)]
      · have hne : ¬ (a.id = q.id) := by
          intro hh
          exact (List.nodup_cons.mp hnodup').1 (hh ▸ List.mem_map_of_mem Product.id hl)
        rw [findById, List.find?_cons_of_neg _ (by simp [hne])]
        exact ih hl (by simpa using (List.nodup_cons.mp hnodup').2)

theorem diffCount_self (u : UpdateData) : ∀ ps : List Product, diffCount u ps ps = 0
  | [] => rfl
  | p :: ps => by
      have ih := diffCount_self u ps
      rw [diffCount] at ih ⊢
      simp only [List.zip_cons_cons, List.countP_cons, ih]
      simp

theorem diffCount_updateById (u : UpdateData) (i : Nat) (f : Product → Product)
    (q : Product) (hdiff : ¬ storedTarget u (f q) = storedTarget u q) :
    ∀ (ps qs : List Product), ps.map Product.id = qs.map Product.id →
      findById i qs = some q → findById i ps = some q →
      diffCount u ps (updateById i f qs) = diffCount u ps qs + 1 := by
  intro ps
  induction ps with
  | nil =>
      intro qs hmap hq hp
      simp [findById] at hp
  | cons p ps ih =>
      intro qs hmap hq hp
      cases qs with
      | nil => simp [findById] at hq
      | cons q0 qs =>
          simp only [List.map_cons, List.cons.injEq] at hmap
          obtain ⟨hid, hmap'⟩ := hmap
          by_cases h : q0.id = i
          · have hq0 : q0 = q := by
              rw [findById, List.find?_cons_of_pos _ (by simp [h])] at hq
              exact Option.some.inj hq
            have hpi : p.id = i := by rw [hid, h]
            have hpq : p = q := by
              rw [findById, List.find?_cons_of_pos _ (by simp [hpi])] at hp
              exact Option.some.inj hp
            subst hq0
            subst hpq
            rw [updateById, if_pos h]
            rw [diffCount, diffCount]
            simp only [List.zip_cons_cons, List.countP_cons]
            have hhead : decide (¬ storedTarget u p = storedTarget u (f p)) = true := by
              simp
              exact fun hh => hdiff hh.symm
            simp [hhead]
          · have hpi : ¬ p.id = i := by rw [hid]; exact h
            rw [findById, List.find?_cons_of_neg _ (by simp [h])] at hq
            rw [findById, List.find?_cons_of_neg _ (by simp [hpi])] at hp
            rw [updateById, if_neg h]
            have ihx := ih qs hmap' hq hp
            rw [diffCount, diffCount] at ihx ⊢
            simp only [List.zip_cons_cons, List.countP_cons] at *
            omega

theorem storedTarget_commitMod (u : UpdateData) (o n : ℚ) (q : Product) :
    storedTarget u (commitMod u o n q) = some n := by
  rw [commitMod, profitRecalc, prevStamp, setField, storedTarget]
  by_cases hc : u.applyTo = some "cost_price"
  · simp only [hc, if_true, if_pos hc]
    split_ifs <;> simp
  · simp only [hc, if_false, if_neg hc]
    split_ifs <;> simp

theorem storedTarget_eq_orig (u : UpdateData) (p : Product)
    (h : ¬ (u.applyTo = some "cost_price" ∧ p.purchasePrice = none)) :
    storedTarget u p = some (origOf u p) := by
  rw [storedTarget, origOf]
  by_cases hc : u.applyTo = some "cost_price"
  · rw [if_pos hc, if_pos hc]
    cases hp : p.purchasePrice with
    | none => exact absurd ⟨hc, hp⟩ h
    | some c => simp
  · rw [if_neg hc, if_neg hc]

theorem bulkStep_skip_nan (u : UpdateData) (st : BulkState) (p : Product)
    (h : u.applyTo = some "cost_price" ∧ p.purchasePrice = none) :
    bulkStep u st p = st := by
  rw [bulkStep, if_pos h]

theorem bulkStep_margin_push (u : UpdateData) (st : BulkState) (p : Product)
    (h1 : ¬ (u.applyTo = some "cost_price" ∧ p.purchasePrice = none))
    (h2 : marginRejected u p (guardClamp u (strategyPrice u (origOf u p))) = true) :
    bulkStep u st p =
      { st with conflicts := st.conflicts ++ [⟨p.id, p.name, marginReason u⟩] } := by
  rw [bulkStep, if_neg h1]
  simp [h2]

theorem bulkStep_commit (u : UpdateData) (st : BulkState) (p : Product)
    (h1 : ¬ (u.applyTo = some "cost_price" ∧ p.purchasePrice = none))
    (h2 : marginRejected u p (guardClamp u (strategyPrice u (origOf u p))) = false)
    (h3 : 1/100 < |round2 (guardClamp u (strategyPrice u (origOf u p))) - origOf u p|)
    (x : Product) (hfind : findById p.id st.products = some x) :
    bulkStep u st p =
      { products := updateById p.id
          (commitMod u (origOf u p) (round2 (guardClamp u (strategyPrice u (origOf u p)))))
          st.products,
        updatedCount := st.updatedCount + 1,
        updateResults := st.updateResults ++
          [⟨p.id, p.name, origOf u p, round2 (guardClamp u (strategyPrice u (origOf u p))),
            round2 (guardClamp u (strategyPrice u (origOf u p))) - origOf u p,
            updateFieldName u⟩],
        conflicts := st.conflicts } := by
  rw [bulkStep, if_neg h1]
  simp only [h2, Bool.false_eq_true, if_false]
  rw [if_pos h3, hfind]

theorem bulkStep_noop (u : UpdateData) (st : BulkState) (p : Product)
    (h1 : ¬ (u.applyTo = some "cost_price" ∧ p.purchasePrice = none))
    (h2 : marginRejected u p (guardClamp u (strategyPrice u (origOf u p))) = false)
    (h3 : ¬ (1/100 < |round2 (guardClamp u (strategyPrice u (origOf u p))) - origOf u p|)) :
    bulkStep u st p = st := by
  rw [bulkStep, if_neg h1]
  simp only [h2, Bool.false_eq_true, if_false]
  rw [if_neg h3]

theorem filterTargets_sublist (ps : List Product) (u : UpdateData) :
    List.Sublist (filterTargets ps u) ps := by
  have hcat : List.Sublist (categoryStockFilter ps u) ps := by
    simp only [categoryStockFilter]
    split_ifs <;>
      first
        | exact (List.filter_sublist _).trans (List.filter_sublist _)
        | exact List.filter_sublist _
        | exact List.Sublist.refl _
  rw [filterTargets]
  split_ifs
  · exact List.filter_sublist _
  · exact hcat
  · exact hcat

theorem bulkFold_invariant (u : UpdateData) (ps : List Product)
    (hnodup : (ps.map Product.id).Nodup) :
    ∀ (todo : List Product) (st : BulkState),
      (∀ q ∈ todo, q ∈ ps) →
      ((todo.map Product.id).Nodup) →
      st.products.map Product.id = ps.map Product.id →
      (∀ q ∈ todo, findById q.id st.products = some q) →
      st.updatedCount = diffCount u ps st.products →
      ((todo.foldl (bulkStep u) st).products.map Product.id = ps.map Product.id ∧
       (todo.foldl (bulkStep u) st).updatedCount =
         diffCount u ps (todo.foldl (bulkStep u) st).products ∧
       (todo.foldl (bulkStep u) st).updatedCount +
           (todo.foldl (bulkStep u) st).conflicts.length ≤
         st.updatedCount + st.conflicts.length + todo.length) := by
  intro todo
  induction todo with
  | nil =>
      intro st _ _ hmap _ hcount
      exact ⟨hmap, hcount, by simp⟩
  | cons p rest ih =>
      intro st hmem hnd hmap hfind hcount
      rw [List.foldl_cons]
      have hp_mem : p ∈ ps := hmem p (List.mem_cons_self p rest)
      have hfind_p : findById p.id st.products = some p := hfind p (List.mem_cons_self p rest)
      have hrest_mem : ∀ q ∈ rest, q ∈ ps := fun q hq => hmem q (List.mem_cons_of_mem p hq)
      have hnd' : (p.id :: rest.map Product.id).Nodup := by simpa using hnd
      have hrest_nd : (rest.map Product.id).Nodup := (List.nodup_cons.mp hnd').2
      have hp_not_in_rest : ∀ q ∈ rest, q.id ≠ p.id := by
        intro q hq heq
        exact (List.nodup_cons.mp hnd').1 (heq ▸ List.mem_map_of_mem Product.id hq)
      by_cases h1 : u.applyTo = some "cost_price" ∧ p.purchasePrice = none
      · rw [bulkStep_skip_nan u st p h1]
        have hout := ih st hrest_mem hrest_nd hmap
          (fun q hq => hfind q (List.mem_cons_of_mem p hq)) hcount
        exact ⟨hout.1, hout.2.1, by
          have := hout.2.2
          simp only [List.length_cons]
          omega⟩
      · by_cases h2 : marginRejected u p (guardClamp u (strategyPrice u (origOf u p))) = true
        · rw [bulkStep_margin_push u st p h1 h2]
          have hout := ih
            { st with conflicts := st.conflicts ++ [⟨p.id, p.name, marginReason u⟩] }
            hrest_mem hrest_nd hmap
            (fun q hq => hfind q (List.mem_cons_of_mem p hq)) hcount
          refine ⟨hout.1, hout.2.1, ?_⟩
          have hle := hout.2.2
          simp only [List.length_append, List.length_cons, List.length_nil] at hle
          simp only [List.length_cons]
          omega
        · have h2' : marginRejected u p (guardClamp u (strategyPrice u (origOf u p))) = false := by
            revert h2
            cases marginRejected u p (guardClamp u (strategyPrice u (origOf u p))) <;> simp
          by_cases h3 : 1/100 <
              |round2 (guardClamp u (strategyPrice u (origOf u p))) - origOf u p|
          · rw [bulkStep_commit u st p h1 h2' h3 p hfind_p]
            have hf_id : ∀ x,
                (commitMod u (origOf u p)
                  (round2 (guardClamp u (strategyPrice u (origOf u p)))) x).id = x.id :=
              fun x => commitMod_id u _ _ x
            have hmap' : (updateById p.id
                (commitMod u (origOf u p)
                  (round2 (guardClamp u (strategyPrice u (origOf u p)))))
                st.products).map Product.id = ps.map Product.id := by
              rw [updateById_map_id p.id _ hf_id st.products]
              exact hmap
            have hfind' : ∀ q ∈ rest, findById q.id (updateById p.id
                (commitMod u (origOf u p)
                  (round2 (guardClamp u (strategyPrice u (origOf u p)))))
                st.products) = some q := by
              intro q hq
              rw [findById_updateById_ne p.id q.id _ hf_id (hp_not_in_rest q hq) st.products]
              exact hfind q (List.mem_cons_of_mem p hq)
            have hne_new : ¬ storedTarget u
                (commitMod u (origOf u p)
                  (round2 (guardClamp u (strategyPrice u (origOf u p)))) p) =
                storedTarget u p := by
              rw [storedTarget_commitMod, storedTarget_eq_orig u p h1]
              intro hEq
              have heq2 := Option.some.inj hEq
              rw [heq2] at h3
              simp at h3
              exact absurd h3 (by norm_num)
            have hfind_ps : findById p.id ps = some p := findById_of_mem_nodup hp_mem hnodup
            have hcount' : st.updatedCount + 1 = diffCount u ps (updateById p.id
                (commitMod u (origOf u p)
                  (round2 (guardClamp u (strategyPrice u (origOf u p)))))
                st.products) := by
              rw [diffCount_updateById u p.id _ p hne_new ps st.products hmap.symm
                hfind_p hfind_ps]
              omega
            have hout := ih
              { products := updateById p.id
                  (commitMod u (origOf u p)
                    (round2 (guardClamp u (strategyPrice u (origOf u p)))))
                  st.products,
                updatedCount := st.updatedCount + 1,
                updateResults := st.updateResults ++
                  [⟨p.id, p.name, origOf u p,
                    round2 (guardClamp u (strategyPrice u (origOf u p))),
                    round2 (guardClamp u (strategyPrice u (origOf u p))) - origOf u p,
                    updateFieldName u⟩],
                conflicts := st.conflicts }
              hrest_mem hrest_nd hmap' hfind' hcount'
            refine ⟨hout.1, hout.2.1, ?_⟩
            have hle := hout.2.2
            simp only [List.length_cons] at hle ⊢
            omega
          · rw [bulkStep_noop u st p h1 h2' h3]
            have hout := ih st hrest_mem hrest_nd hmap
              (fun q hq => hfind q (List.mem_cons_of_mem p hq)) hcount
            exact ⟨hout.1, hout.2.1, by
              have := hout.2.2
              simp only [List.length_cons]
              omega⟩

/-- C8: whenever `bulkUpdatePrices` returns a report, `updatedCount +
conflicts.length ≤ totalFiltered`, the collection keeps its length, and
`updatedCount` equals the number of stored records whose targeted price
field (`price`, or `purchasePrice` for `cost_price` requests) differs after
the call from before it — assuming the collection's ids are distinct, as
the data model requires. -/
theorem c8_tally_and_count (ps : List Product) (u : UpdateData)
    (hnodup : (ps.map Product.id).Nodup) (r : BulkReport) (ps2 : List Product)
    (hrun : bulkUpdatePrices ps u = (Except.ok r, ps2)) :
    r.updatedCount + r.conflicts.length ≤ r.totalFiltered ∧
    ps2.length = ps.length ∧
    r.updatedCount = diffCount u ps ps2 := by
  simp only [bulkUpdatePrices] at hrun
  by_cases hv : (validateBulkPriceUpdate u).isValid = true
  · rw [if_pos hv] at hrun
    have hsub := filterTargets_sublist ps u
    have hmain := bulkFold_invariant u ps hnodup (filterTargets ps u) ⟨ps, 0, [], []⟩
      (fun q hq => hsub.subset hq)
      (hnodup.sublist (hsub.map Product.id))
      rfl
      (fun q hq => findById_of_mem_nodup (hsub.subset hq) hnodup)
      (by rw [diffCount_self])
    simp only [Prod.mk.injEq, Except.ok.injEq] at hrun
    obtain ⟨hre, hps2⟩ := hrun
    subst hre
    subst hps2
    refine ⟨?_, ?_, ?_⟩
    · have hle := hmain.2.2
      simpa using hle
    · have hlen := congrArg List.length hmain.1
      simpa using hlen
    · exact hmain.2.1
  · rw [if_neg hv] at hrun
    simp at hrun

/-- C8 witness: the tally invariant applied to a concrete one-product
+10 % run. -/
theorem c8_tally_and_count_witness :
    ([w8Product].map Product.id).Nodup ∧
    bulkUpdatePrices [w8Product] w8Request = (Except.ok w8Report, [w8Outcome]) ∧
    (w8Report.updatedCount + w8Report.conflicts.length ≤ w8Report.totalFiltered ∧
     [w8Outcome].length = [w8Product].length ∧
     w8Report.updatedCount = diffCount w8Request [w8Product] [w8Outcome]) := by
  have hnod : ([w8Product].map Product.id).Nodup := by simp
  have hrun : bulkUpdatePrices [w8Product] w8Request = (Except.ok w8Report, [w8Outcome]) := by
    simp [bulkUpdatePrices, validateBulkPriceUpdate, filterTargets, categoryStockFilter,
      bulkStep, origOf, strategyPrice, guardClamp, marginRejected, marginReason,
      updateFieldName, findById, updateById, commitMod, setField, prevStamp,
      profitRecalc, truthyQ, jsOr, round2, jsRound, mkProduct, mkUpdate,
      w8Product, w8Request, w8Report, w8Outcome]
    try norm_num [Rat.floor_def']
  exact ⟨hnod, hrun, c8_tally_and_count [w8Product] w8Request hnod w8Report [w8Outcome] hrun⟩
